import Mathlib

/-!
# 2pay-Backend: event-synchronization engine, shallow embedding

This file embeds, as executable Lean definitions, the parts of the
2pay backend that the specification's claims are about:

* the off-chain Store (Supabase tables `contributions`, `pools`, `payouts`,
  `sync_state`) together with the event-processing operations of
  `EventPollingService` (`src/unnamed/part_001`: `processContribution`,
  `processPayout`, `poll`) — the same reconciliation logic appears in
  `src/src/services/eventListener.ts`;
* the manual payout path of `poolController.triggerManualPayout`
  (`src/unnamed/part_003`, lines 332–347);
* the ws→http failover of `EventListener` (`src/src/services/eventListener.ts`,
  `handleWsFailure` / `fallbackToHttp`);
* the on-chain contracts `TwoPay` and `TwoPayTestnet`
  (`src/contracts/TwoPay.sol`).

Supabase conventions mirrored here: `.single()` succeeds only when the query
matches exactly one row (zero or several rows yield an error object, which the
service code logs and then returns on); `.update(..).eq(..)` mutates every
matching row; a plain `.insert` appends a row (no table in the repository's
migrations declares a uniqueness constraint on `payouts`). Timestamps
(`new Date().toISOString()`) are modelled as a `now : Nat` parameter.
Persisted errors returned by Supabase (transient store failures) are modelled
where a claim depends on them, as explicit failure flags.
-/

namespace TwoPayBackend

/-- Contribution status strings the backend writes: `'pending'` (API layer),
`'confirmed'` and `'paid'` (event processing), and `'processed'`
(`poolController.triggerManualPayout`). -/
inductive Status where
  | pending
  | confirmed
  | paid
  | processed
deriving DecidableEq, Repr

/-- Rank of a status along the lifecycle pending → confirmed → paid;
`processed` is outside that lifecycle and ranked last. -/
def statusRank : Status → Nat
  | .pending => 0
  | .confirmed => 1
  | .paid => 2
  | .processed => 3

/-- A row of the `contributions` table, restricted to the columns the
modelled operations read or write. -/
structure ContributionRow where
  id : Nat
  user_address : String
  pool_id : Nat
  tier : Nat
  batch_number : Nat
  amount : Nat
  transaction_hash : String
  status : Status
  paid_at : Option Nat
  payout_tx_hash : Option String
  processed_at : Option Nat
deriving DecidableEq, Repr

/-- A row of the `payouts` table as inserted by `processPayout`. -/
structure PayoutRow where
  user_address : String
  tier : Nat
  batch_number : Nat
  amount : Nat
  transaction_hash : String
  block_number : Nat
  processed_at : Nat
deriving DecidableEq, Repr

/-- A row of the `pools` table, restricted to the columns the engine touches. -/
structure PoolRow where
  id : Nat
  tier : Nat
  current_batch : Nat
deriving DecidableEq, Repr

/-- The off-chain Store: the three tables plus the `sync_state` cursor.
List order of `contributions` is creation order (`created_at` ascending),
which is the order `triggerManualPayout` queries by. -/
structure Store where
  contributions : List ContributionRow
  pools : List PoolRow
  payouts : List PayoutRow
  syncCursor : Option Nat
deriving DecidableEq, Repr

/-! ## Reconciliation operations (EventPollingService / eventListener) -/

/-- JavaScript `String.prototype.toLowerCase()` as the services apply it to
hex addresses (ASCII), mapped over the characters. -/
def toLowerAddr (a : String) : String :=
  String.mk (a.data.map Char.toLower)

/-- The row filter of `processContribution`:
`.eq('user_address', contributor.toLowerCase()).eq('status', 'pending')
.eq('transaction_hash', event.transactionHash)`. -/
def contribPendingMatch (addr txHash : String) (r : ContributionRow) : Bool :=
  decide (r.user_address = addr ∧ r.status = Status.pending ∧
          r.transaction_hash = txHash)

/-- The update `processContribution` applies to the matched row:
`{ status: 'confirmed', batch_number: Number(batch) }`. -/
def confirmRow (batch : Nat) (r : ContributionRow) : ContributionRow :=
  { r with status := Status.confirmed, batch_number := batch }

/-- `EventPollingService.processContribution` (src/unnamed/part_001, 158–217;
same logic in eventListener.ts 149–211): find the unique pending contribution
matching (lowercased address, transaction hash) — `.single()` errors and the
function returns unless exactly one row matches — set it `confirmed` with the
event's batch, then set the pool's `current_batch` to the event's batch
unconditionally for every pool of that tier. -/
def processContribution (contributor : String) (tier batch : Nat)
    (txHash : String) (s : Store) : Store :=
  let addr := toLowerAddr contributor
  match s.contributions.filter (contribPendingMatch addr txHash) with
  | [c] =>
      { s with
        contributions := s.contributions.map
          (fun r => if r.id = c.id then confirmRow batch r else r),
        pools := s.pools.map
          (fun p => if p.tier = tier then { p with current_batch := batch }
                    else p) }
  | _ => s

/-- The row filter of `processPayout`'s update:
`.eq('user_address', recipient.toLowerCase()).eq('tier', Number(tier))
.eq('batch_number', Number(batch))` — note: no status condition. -/
def payoutMatch (addr : String) (tier batch : Nat) (r : ContributionRow) : Bool :=
  decide (r.user_address = addr ∧ r.tier = tier ∧ r.batch_number = batch)

/-- The update `processPayout` applies to every matched row:
`{ status: 'paid', paid_at: now, payout_tx_hash: event.transactionHash }`. -/
def payRow (now : Nat) (txHash : String) (r : ContributionRow) : ContributionRow :=
  { r with status := Status.paid, paid_at := some now,
           payout_tx_hash := some txHash }

/-- The `payouts` row `processPayout` inserts. -/
def mkPayoutRow (addr : String) (tier batch amount : Nat) (txHash : String)
    (blockNumber now : Nat) : PayoutRow :=
  { user_address := addr, tier := tier, batch_number := batch,
    amount := amount, transaction_hash := txHash,
    block_number := blockNumber, processed_at := now }

/-- `EventPollingService.processPayout` (src/unnamed/part_001, 219–272; same
logic in eventListener.ts 226–281): set every contribution matching
(lowercased address, tier, batch) to `paid` — the update carries no status
filter and matching zero rows is not an error — then insert a `payouts` row
unconditionally (plain `.insert`, no if-absent guard). -/
def processPayout (recipient : String) (amount tier batch : Nat)
    (txHash : String) (blockNumber now : Nat) (s : Store) : Store :=
  let addr := toLowerAddr recipient
  { s with
    contributions := s.contributions.map
      (fun r => if payoutMatch addr tier batch r then payRow now txHash r
                else r),
    payouts := s.payouts ++
      [mkPayoutRow addr tier batch amount txHash blockNumber now] }

/-- The two ledger events the engine tracks, with the originating
transaction's hash and block as the service reads them off the raw log. -/
inductive LedgerEvent where
  | contributionAccepted (contributor : String) (tier batch : Nat)
      (txHash : String) (blockNumber : Nat)
  | payoutProcessed (recipient : String) (amount tier batch : Nat)
      (txHash : String) (blockNumber : Nat)
deriving DecidableEq, Repr

/-- Dispatch of one normalized ledger event to the matching handler. -/
def applyEvent (now : Nat) (s : Store) (e : LedgerEvent) : Store :=
  match e with
  | .contributionAccepted contributor tier batch txHash _ =>
      processContribution contributor tier batch txHash s
  | .payoutProcessed recipient amount tier batch txHash blockNumber =>
      processPayout recipient amount tier batch txHash blockNumber now s

/-! ## The polling sweep (EventPollingService.poll)

`poll` (src/unnamed/part_001, 100–156) computes `fromBlock = last + 1`,
`toBlock = min(currentBlock, fromBlock + 100)`, returns when
`fromBlock > toBlock`, queries the two event kinds for the range, applies all
contribution events then all payout events, and finally writes
`last_processed_block = toBlock`.

Each `processContribution`/`processPayout` call catches its own failures:
a Supabase error object makes the handler log and `return` with the row
unmodified, and `poll` proceeds with the remaining events and still writes
the cursor. Such per-event store failures are modelled by a `Bool` flag
attached to each queried event (`true` = the store update for that event
returns an error, leaving the Store unchanged). A thrown provider or
`queryFilter` error, by contrast, lands in `poll`'s own `catch` before any
state change: that case is simply the absence of a `pollSweep` application.
-/

/-- `MAX_BLOCKS_PER_POLL` of `EventPollingService`. -/
def MAX_BLOCKS_PER_POLL : Nat := 100

/-- Apply one queried event, unless its store update fails (flag `true`),
mirroring the handler's internal error-and-return. -/
def applyPolled (now : Nat) (s : Store) (ef : LedgerEvent × Bool) : Store :=
  if ef.2 then s else applyEvent now s ef.1

/-- One `poll` sweep: `lastProcessed` is the in-memory cursor,
`currentBlock` the provider's head, `cEvents`/`pEvents` the query results for
`ContributionReceived` and `PayoutSent` (each with its failure flag). -/
def pollSweep (lastProcessed currentBlock : Nat)
    (cEvents pEvents : List (LedgerEvent × Bool)) (now : Nat)
    (s : Store) : Store :=
  let fromBlock := lastProcessed + 1
  let toBlock := min currentBlock (fromBlock + MAX_BLOCKS_PER_POLL)
  if fromBlock > toBlock then s
  else
    let s1 := cEvents.foldl (applyPolled now) s
    let s2 := pEvents.foldl (applyPolled now) s1
    { s2 with syncCursor := some toBlock }

/-! ## Manual payout (poolController.triggerManualPayout) -/

/-- The status/timestamp update of `poolController.triggerManualPayout`
(src/unnamed/part_003, 332–347) applied to each selected contribution:
`{ status: 'processed', processed_at: now, tx_hash: receipt.hash, ... }`
(the `network` column is not modelled). -/
def processRow (now : Nat) (r : ContributionRow) : ContributionRow :=
  { r with status := Status.processed, processed_at := some now }

/-- The store mutation of `poolController.triggerManualPayout`
(src/unnamed/part_003, 203–359, store writes at 332–347): select the up to 5
oldest `pending` contributions of the pool (`created_at` ascending — list
order here), and after the on-chain transaction confirms, set their status to
`'processed'`. The on-chain call and the `transactions` table are outside the
modelled Store. -/
def triggerManualPayout (poolId : Nat) (now : Nat) (s : Store) : Store :=
  let pend := (s.contributions.filter
    (fun r => decide (r.pool_id = poolId ∧ r.status = Status.pending))).take 5
  let ids := pend.map (fun r => r.id)
  { s with
    contributions := s.contributions.map
      (fun r => if r.id ∈ ids then processRow now r else r) }

/-! ## WebSocket failover (EventListener)

`EventListener` (src/src/services/eventListener.ts) registers its two event
handlers with `contract.on(...)` in `start()`. On a ws close/error,
`handleWsFailure` destroys the ws provider and `fallbackToHttp` replaces
`this.contract` with a freshly connected instance — on which no handler is
ever registered — and performs no store read, no cursor read and no catch-up
query. `handlersRegistered` tracks whether the *active* contract object has
handlers attached; `deliverEvent` models the arrival of a contract event,
which reaches the Store only through a registered handler. -/

inductive ProviderKind where
  | ws
  | http
deriving DecidableEq, Repr

/-- The listener's connection/handler state plus the Store it writes to. -/
structure ListenerState where
  provider : ProviderKind
  handlersRegistered : Bool
  store : Store
deriving DecidableEq, Repr

/-- `EventListener.start` (lines 125–301): registers the contribution and
payout handlers on the currently connected contract object. -/
def startListener (l : ListenerState) : ListenerState :=
  { l with handlersRegistered := true }

/-- `EventListener.fallbackToHttp` (lines 111–123): if not already on HTTP,
switch the provider and reconnect the contract — a fresh object with no
registered handlers. -/
def fallbackToHttp (l : ListenerState) : ListenerState :=
  if l.provider = ProviderKind.http then l
  else { l with provider := ProviderKind.http, handlersRegistered := false }

/-- `EventListener.handleWsFailure` (lines 101–109): destroy the ws provider
(no Store effect) and fall back to HTTP. -/
def handleWsFailure (l : ListenerState) : ListenerState :=
  fallbackToHttp l

/-- Arrival of a contract event at the listener: it is applied to the Store
iff the active contract object has handlers registered. -/
def deliverEvent (now : Nat) (e : LedgerEvent) (l : ListenerState) : ListenerState :=
  if l.handlersRegistered then { l with store := applyEvent now l.store e }
  else l

/-! ## The on-chain contracts (src/contracts/TwoPay.sol)

Both `TwoPay` (mainnet) and `TwoPayTestnet` keep, per tier, a `Pool` struct
with `contributionAmount`, `currentBatch`, a `contributors` array, a
`batches` mapping and a `batchPayoutIndex` mapping. The USDC `transfer`
calls are assumed to succeed (token accounting is outside the modelled
state); emitted events are returned alongside the new pool state, in
emission order. Solidity mappings become total functions with default 0 /
`[]`, matching EVM storage semantics. -/

/-- One tier's on-chain pool storage. -/
structure PoolC where
  contributionAmount : Nat
  currentBatch : Nat
  contributors : List String
  batches : Nat → List String
  batchPayoutIndex : Nat → Nat

/-- Events emitted by the contracts. -/
inductive ChainEvent where
  | contributionAdded (contributor : String) (tier batch : Nat)
  | payoutProcessed (contributor : String) (amount tier batch : Nat)
deriving DecidableEq, Repr

/-- Constructor-time tier table of both contracts:
`pools[1] = 10e6`, `pools[2] = 50e6`, `pools[3] = 500e6`. -/
def initContributionAmount (tier : Nat) : Nat :=
  if tier = 1 then 10 * 10 ^ 6
  else if tier = 2 then 50 * 10 ^ 6
  else if tier = 3 then 500 * 10 ^ 6
  else 0

/-- The pool state right after either contract's constructor ran. -/
def initPool (tier : Nat) : PoolC :=
  { contributionAmount := initContributionAmount tier
    currentBatch := 0
    contributors := []
    batches := fun _ => []
    batchPayoutIndex := fun _ => 0 }

/-- Mainnet contributor payout: `(pool.contributionAmount * 3) / 2`
(`TwoPay._processBatchPayout`, line 68; `/` is Solidity's flooring
division on `uint256`, matching `Nat` division). -/
def mainnetContributorAmount (contributionAmount : Nat) : Nat :=
  contributionAmount * 3 / 2

/-- `TwoPay._processBatchPayout` (lines 56–88): store the current
contributors as the current batch, pay the contributor at
`batchPayoutIndex[currentBatch]` if that index is `< 5` (incrementing the
index), then clear `contributors` and increment `currentBatch`. Array
indexing is `getD` with a dummy default; under the guard and the reachable
invariant the index is in range. -/
def mProcessBatchPayout (tier : Nat) (p : PoolC) : PoolC × List ChainEvent :=
  let batches' := fun b => if b = p.currentBatch then p.contributors
                           else p.batches b
  let payoutIndex := p.batchPayoutIndex p.currentBatch
  if payoutIndex < 5 then
    let contributor := (batches' p.currentBatch).getD payoutIndex ""
    let contributorAmount := mainnetContributorAmount p.contributionAmount
    ({ p with
        batches := batches'
        batchPayoutIndex := fun b =>
          if b = p.currentBatch then payoutIndex + 1
          else p.batchPayoutIndex b
        contributors := []
        currentBatch := p.currentBatch + 1 },
     [ChainEvent.payoutProcessed contributor contributorAmount tier
        p.currentBatch])
  else
    ({ p with batches := batches', contributors := []
              currentBatch := p.currentBatch + 1 }, [])

/-- `TwoPay.contribute` (lines 35–54): push the sender onto `contributors`;
if the array now has 5 entries, run `_processBatchPayout`; finally emit
`ContributionAdded(msg.sender, tier, pool.currentBatch)` — reading
`currentBatch` *after* any batch close. -/
def mContribute (tier : Nat) (sender : String) (p : PoolC) :
    PoolC × List ChainEvent :=
  let p1 := { p with contributors := p.contributors ++ [sender] }
  let step := if p1.contributors.length = 5 then mProcessBatchPayout tier p1
              else (p1, [])
  (step.1, step.2 ++ [ChainEvent.contributionAdded sender tier
                        step.1.currentBatch])

/-- Testnet per-tier hardcoded contributor payout
(`TwoPayTestnet._processPayout`, lines 196–223). -/
def testnetContributorAmount (tier : Nat) : Nat :=
  if tier = 1 then 30 * 10 ^ 6
  else if tier = 2 then 150 * 10 ^ 6
  else 1500 * 10 ^ 6

/-- Testnet per-tier hardcoded platform amount (same function). -/
def testnetPlatformAmount (tier : Nat) : Nat :=
  if tier = 1 then 20 * 10 ^ 6
  else if tier = 2 then 100 * 10 ^ 6
  else 1000 * 10 ^ 6

/-- `TwoPayTestnet._processPayout` (lines 196–223): transfer the hardcoded
amounts and emit `PayoutProcessed(contributor, amount, tier,
pools[tier].currentBatch)` — `currentBatch` has not been incremented yet at
this point. -/
def tProcessPayout (contributor : String) (tier : Nat) (p : PoolC) :
    List ChainEvent :=
  [ChainEvent.payoutProcessed contributor (testnetContributorAmount tier)
    tier p.currentBatch]

/-- `TwoPayTestnet._processBatchPayout` (lines 168–194): store the
contributors as the current batch; for batch 0 pay `batches[0][0]` and set
`batchPayoutIndex[0] = 1`; for a later batch pay
`batches[previousBatch][batchPayoutIndex[previousBatch]]` if that index is
`< 5`, incrementing it; then clear `contributors` and increment
`currentBatch`. -/
def tProcessBatchPayout (tier : Nat) (p : PoolC) : PoolC × List ChainEvent :=
  let batches' := fun b => if b = p.currentBatch then p.contributors
                           else p.batches b
  let p1 := { p with batches := batches' }
  if p1.currentBatch = 0 then
    let firstContributor := (batches' 0).getD 0 ""
    let evs := tProcessPayout firstContributor tier p1
    let p2 := { p1 with batchPayoutIndex := fun b =>
                  if b = 0 then 1 else p1.batchPayoutIndex b }
    ({ p2 with contributors := [], currentBatch := p2.currentBatch + 1 }, evs)
  else
    let previousBatch := p1.currentBatch - 1
    let payoutIndex := p1.batchPayoutIndex previousBatch
    if payoutIndex < 5 then
      let nextContributor := (batches' previousBatch).getD payoutIndex ""
      let evs := tProcessPayout nextContributor tier p1
      let p2 := { p1 with batchPayoutIndex := fun b =>
                    if b = previousBatch then payoutIndex + 1
                    else p1.batchPayoutIndex b }
      ({ p2 with contributors := [], currentBatch := p2.currentBatch + 1 },
       evs)
    else
      ({ p1 with contributors := [], currentBatch := p1.currentBatch + 1 },
       [])

/-- Testnet pool storage plus its `hasContributed[addr][tier]` guard map
(restricted to one tier). -/
structure TPool where
  pool : PoolC
  hasContributed : String → Bool

/-- The testnet pool state right after the constructor ran. -/
def initTPool (tier : Nat) : TPool :=
  { pool := initPool tier, hasContributed := fun _ => false }

/-- The body of `TwoPayTestnet.contribute` (lines 142–166) past the
`hasContributed` guard: mark the sender, push them onto `contributors`,
close the batch at 5 entries, and emit `ContributionAdded` with the
post-close `currentBatch`. -/
def tContributeBody (tier : Nat) (sender : String) (t : TPool) :
    TPool × List ChainEvent :=
  let p1 := { t.pool with contributors := t.pool.contributors ++ [sender] }
  let step := if p1.contributors.length = 5 then tProcessBatchPayout tier p1
              else (p1, [])
  ({ pool := step.1
     hasContributed := fun a => if a = sender then true
                                else t.hasContributed a },
   step.2 ++ [ChainEvent.contributionAdded sender tier
                step.1.currentBatch])

/-- `TwoPayTestnet.contribute` (lines 142–166): reverts (`none`) when the
sender already contributed to this tier, otherwise runs the body. -/
def tContribute (tier : Nat) (sender : String) (t : TPool) :
    Option (TPool × List ChainEvent) :=
  if t.hasContributed sender then none
  else some (tContributeBody tier sender t)

/-- Reachable mainnet pool states: the constructor state closed under
`contribute` calls. -/
inductive MReachable (tier : Nat) : PoolC → Prop where
  | init : MReachable tier (initPool tier)
  | step (p : PoolC) (sender : String) : MReachable tier p →
      MReachable tier (mContribute tier sender p).1

/-- Reachable testnet pool states: the constructor state closed under
successful `contribute` calls. -/
inductive TReachable (tier : Nat) : TPool → Prop where
  | init : TReachable tier (initTPool tier)
  | step (t t' : TPool) (sender : String) (evs : List ChainEvent) :
      TReachable tier t → tContribute tier sender t = some (t', evs) →
      TReachable tier t'

/-- Number of `PayoutProcessed` events in an emission list. -/
def payoutCount (evs : List ChainEvent) : Nat :=
  (evs.filter (fun e => match e with
    | ChainEvent.payoutProcessed _ _ _ _ => true
    | _ => false)).length

/-! ## Helper lemmas -/

theorem filter_singleton_unique {α : Type} (p : α → Bool) (l : List α) (c : α)
    (h : l.filter p = [c]) : ∀ r ∈ l, p r = true → r = c := by
  intro r hr hpr
  have hm : r ∈ l.filter p := List.mem_filter.mpr ⟨hr, hpr⟩
  rw [h] at hm
  simpa using hm

theorem filter_singleton_spec {α : Type} (p : α → Bool) (l : List α) (c : α)
    (h : l.filter p = [c]) : c ∈ l ∧ p c = true := by
  have hm : c ∈ l.filter p := by rw [h]; exact List.mem_singleton_self c
  exact ⟨(List.mem_filter.mp hm).1, (List.mem_filter.mp hm).2⟩

/-- When no row passes the pending-contribution filter, `processContribution`
leaves the Store untouched (`.single()` errors, the handler returns). -/
theorem processContribution_no_match (contributor : String) (tier batch : Nat)
    (txHash : String) (s : Store)
    (h : s.contributions.filter
          (contribPendingMatch (toLowerAddr contributor) txHash) = []) :
    processContribution contributor tier batch txHash s = s := by
  unfold processContribution
  simp only [h]

/-- A confirmed row never passes the pending filter again. -/
theorem contribPendingMatch_confirmRow (addr txHash : String) (batch : Nat)
    (r : ContributionRow) :
    contribPendingMatch addr txHash (confirmRow batch r) = false := by
  simp [contribPendingMatch, confirmRow]

/-- After a successful `processContribution`, re-running the filter finds
nothing: the unique pending match was confirmed and no other row changed. -/
theorem processContribution_filter_after (contributor : String)
    (batch : Nat) (txHash : String) (s : Store) (c : ContributionRow)
    (h : s.contributions.filter
          (contribPendingMatch (toLowerAddr contributor) txHash) = [c]) :
    (s.contributions.map
        (fun r => if r.id = c.id then confirmRow batch r else r)).filter
      (contribPendingMatch (toLowerAddr contributor) txHash) = [] := by
  apply List.filter_eq_nil_iff.mpr
  intro x hx
  rcases List.mem_map.mp hx with ⟨r, hr, hrx⟩
  by_cases hid : r.id = c.id
  · rw [if_pos hid] at hrx
    rw [← hrx, contribPendingMatch_confirmRow]
    simp
  · rw [if_neg hid] at hrx
    subst hrx
    intro hpred
    exact hid (congrArg ContributionRow.id
      (filter_singleton_unique _ _ _ h r hr hpred))

/-- The `[c]` branch of `processContribution`, spelled out. -/
theorem processContribution_single (contributor : String) (tier batch : Nat)
    (txHash : String) (s : Store) (c : ContributionRow)
    (h : s.contributions.filter
          (contribPendingMatch (toLowerAddr contributor) txHash) = [c]) :
    processContribution contributor tier batch txHash s =
      { s with
        contributions := s.contributions.map
          (fun r => if r.id = c.id then confirmRow batch r else r),
        pools := s.pools.map
          (fun p => if p.tier = tier then { p with current_batch := batch }
                    else p) } := by
  unfold processContribution
  simp only [h]

/-- The `_` branch of `processContribution` for two or more matches
(`.single()` errors on a non-unique result). -/
theorem processContribution_multi (contributor : String) (tier batch : Nat)
    (txHash : String) (s : Store) (c d : ContributionRow)
    (t : List ContributionRow)
    (h : s.contributions.filter
          (contribPendingMatch (toLowerAddr contributor) txHash)
          = c :: d :: t) :
    processContribution contributor tier batch txHash s = s := by
  unfold processContribution
  simp only [h]

/-- Applying `processContribution` for the same event twice equals applying
it once: the first application either did nothing, or confirmed the unique
pending match, after which the pending filter finds nothing. -/
theorem processContribution_idem (contributor : String) (tier batch : Nat)
    (txHash : String) (s : Store) :
    processContribution contributor tier batch txHash
        (processContribution contributor tier batch txHash s) =
      processContribution contributor tier batch txHash s := by
  cases hf : s.contributions.filter
      (contribPendingMatch (toLowerAddr contributor) txHash) with
  | nil =>
      rw [processContribution_no_match contributor tier batch txHash s hf]
      exact processContribution_no_match contributor tier batch txHash s hf
  | cons c tail =>
      cases tail with
      | cons d t2 =>
          rw [processContribution_multi contributor tier batch txHash s
                c d t2 hf]
          exact processContribution_multi contributor tier batch txHash s
            c d t2 hf
      | nil =>
          rw [processContribution_single contributor tier batch txHash s c hf]
          exact processContribution_no_match contributor tier batch txHash _
            (processContribution_filter_after contributor batch txHash s c hf)

/-- `payRow` changes none of the columns the payout filter reads. -/
theorem payoutMatch_payRow (addr : String) (tier batch now : Nat)
    (txHash : String) (r : ContributionRow) :
    payoutMatch addr tier batch (payRow now txHash r)
      = payoutMatch addr tier batch r := by
  simp [payoutMatch, payRow]

/-- At a fixed timestamp and transaction hash, `payRow` is idempotent. -/
theorem payRow_idem (now : Nat) (txHash : String) (r : ContributionRow) :
    payRow now txHash (payRow now txHash r) = payRow now txHash r := rfl

/-- The contributions update of `processPayout` is idempotent pointwise. -/
theorem payoutUpdate_idem (addr : String) (tier batch now : Nat)
    (txHash : String) (r : ContributionRow) :
    (fun x => if payoutMatch addr tier batch x then payRow now txHash x
              else x)
      ((fun x => if payoutMatch addr tier batch x then payRow now txHash x
                 else x) r)
      = (fun x => if payoutMatch addr tier batch x then payRow now txHash x
                  else x) r := by
  by_cases h : payoutMatch addr tier batch r
  · simp [h, payoutMatch_payRow, payRow_idem]
  · simp [h]

/-! ## Concrete fixtures used by counterexamples and witnesses -/

/-- A pending tier-1 contribution, as the API layer would have created it. -/
def rowPending : ContributionRow :=
  { id := 1, user_address := "0xaa", pool_id := 1, tier := 1,
    batch_number := 0, amount := 10000000, transaction_hash := "0xt1",
    status := Status.pending, paid_at := none, payout_tx_hash := none,
    processed_at := none }

/-- The same contribution after the engine confirmed it. -/
def rowConfirmed : ContributionRow :=
  { rowPending with status := Status.confirmed }

/-- The tier-1 pool row at a given current batch. -/
def poolTier1 (b : Nat) : PoolRow := { id := 1, tier := 1, current_batch := b }

/-- A store holding one pending tier-1 contribution. -/
def storePending : Store :=
  { contributions := [rowPending], pools := [poolTier1 0], payouts := [],
    syncCursor := some 10 }

/-- A store holding one confirmed tier-1 contribution. -/
def storeConfirmed : Store :=
  { contributions := [rowConfirmed], pools := [poolTier1 0], payouts := [],
    syncCursor := some 10 }

/-- A store whose tier-1 pool already sits at batch 5, with one pending
contribution awaiting confirmation. -/
def storePendingBatch5 : Store :=
  { contributions := [rowPending], pools := [poolTier1 5], payouts := [],
    syncCursor := some 10 }

/-! ## Claims -/

/-- **C1**, counterexample. Re-applying the `PayoutProcessed` event
`(0xAA, 15000000, tier 1, batch 0)` to a store holding the matching
confirmed contribution does *not* reproduce the single-application state:
`processPayout` inserts a second `payouts` row (plain `.insert`, no
if-absent guard), so applying the event twice differs from applying it
once. -/
theorem payout_replay_duplicates_record :
    applyEvent 50
        (applyEvent 50 storeConfirmed
          (LedgerEvent.payoutProcessed "0xAA" 15000000 1 0 "0xp1" 20))
        (LedgerEvent.payoutProcessed "0xAA" 15000000 1 0 "0xp1" 20)
      ≠ applyEvent 50 storeConfirmed
          (LedgerEvent.payoutProcessed "0xAA" 15000000 1 0 "0xp1" 20) := by
  decide

/-- **C1**, amended. Applying the same `ContributionAccepted` event twice in
succession yields the same Store state as applying it once; re-applying a
`PayoutProcessed` event (at the same processing timestamp) leaves the
contributions table unchanged, but appends a second, duplicate `payouts`
row for the same (tier, batch, address). -/
theorem event_replay_characterization (contributor recipient : String)
    (tier batch amount blockNumber now : Nat) (txHash ptxHash : String)
    (s : Store) :
    processContribution contributor tier batch txHash
        (processContribution contributor tier batch txHash s) =
      processContribution contributor tier batch txHash s ∧
    (processPayout recipient amount tier batch ptxHash blockNumber now
        (processPayout recipient amount tier batch ptxHash blockNumber now
          s)).contributions =
      (processPayout recipient amount tier batch ptxHash blockNumber now
        s).contributions ∧
    (processPayout recipient amount tier batch ptxHash blockNumber now
        (processPayout recipient amount tier batch ptxHash blockNumber now
          s)).payouts =
      (processPayout recipient amount tier batch ptxHash blockNumber now
          s).payouts ++
        [mkPayoutRow (toLowerAddr recipient) tier batch amount ptxHash
          blockNumber now] := by
  refine ⟨processContribution_idem contributor tier batch txHash s, ?_, rfl⟩
  show (s.contributions.map _).map _ = s.contributions.map _
  rw [List.map_map]
  exact List.map_congr_left (fun r _ =>
    payoutUpdate_idem (toLowerAddr recipient) tier batch now ptxHash r)

/-- **C8**. A `ContributionAccepted` event whose transaction hash matches no
pending contribution record leaves the Store exactly as it was: no record
is created or updated, no pool counter changes. -/
theorem no_fabrication (contributor : String) (tier batch : Nat)
    (txHash : String) (s : Store)
    (h : ∀ r ∈ s.contributions,
      ¬(r.status = Status.pending ∧ r.transaction_hash = txHash)) :
    processContribution contributor tier batch txHash s = s := by
  apply processContribution_no_match
  apply List.filter_eq_nil_iff.mpr
  intro r hr
  simp only [contribPendingMatch, decide_eq_true_eq]
  intro hc
  exact h r hr ⟨hc.2.1, hc.2.2⟩

/-- **C8**, witness: a store holding only a confirmed record has no pending
match for a fresh transaction hash, and the event is a strict no-op. -/
theorem no_fabrication_witness :
    processContribution "0xBB" 1 0 "0xzz" storeConfirmed = storeConfirmed :=
  no_fabrication "0xBB" 1 0 "0xzz" storeConfirmed (by decide)

/-- **C4**, counterexample. The store holds one *pending* record for
`(0xaa, tier 1, batch 0)` and no confirmed record, so the claim predicts the
`PayoutProcessed` event is a no-op; in fact `processPayout` carries no
status filter, flips the pending record straight to `paid`, and inserts a
payout row. -/
theorem payout_without_confirmed_match_mutates :
    processPayout "0xAA" 15000000 1 0 "0xp1" 20 50 storePending
        ≠ storePending ∧
      (processPayout "0xAA" 15000000 1 0 "0xp1" 20 50
          storePending).contributions.map (fun r => r.status)
        = [Status.paid] := by
  decide

/-- **C4**, amended. Processing a `PayoutProcessed(address, amount, tier,
batch)` event updates every `ContributionRecord` matching (address, tier,
batch) to status `paid` regardless of its previous status — there is no
`confirmed` lookup — and always inserts a `payouts` row, even when no
record matches at all. -/
theorem processPayout_pays_any_status (recipient : String)
    (amount tier batch : Nat) (txHash : String) (blockNumber now : Nat)
    (s : Store) (r : ContributionRow) (hr : r ∈ s.contributions)
    (haddr : r.user_address = toLowerAddr recipient) (htier : r.tier = tier)
    (hbatch : r.batch_number = batch) :
    payRow now txHash r ∈
      (processPayout recipient amount tier batch txHash blockNumber now
        s).contributions ∧
    (processPayout recipient amount tier batch txHash blockNumber now
        s).payouts =
      s.payouts ++ [mkPayoutRow (toLowerAddr recipient) tier batch amount
        txHash blockNumber now] := by
  refine ⟨?_, rfl⟩
  have hm : payoutMatch (toLowerAddr recipient) tier batch r = true := by
    simp [payoutMatch, haddr, htier, hbatch]
  have hmem := List.mem_map_of_mem
    (fun x => if payoutMatch (toLowerAddr recipient) tier batch x
              then payRow now txHash x else x) hr
  simp only [hm, if_true] at hmem
  exact hmem

/-- **C4**, witness: the pending record of `storePending` is paid by the
payout event even though it was never confirmed. -/
theorem processPayout_pays_any_status_witness :
    payRow 50 "0xp1" rowPending ∈
      (processPayout "0xAA" 15000000 1 0 "0xp1" 20 50
        storePending).contributions ∧
    (processPayout "0xAA" 15000000 1 0 "0xp1" 20 50 storePending).payouts =
      storePending.payouts ++
        [mkPayoutRow "0xaa" 1 0 15000000 "0xp1" 20 50] :=
  processPayout_pays_any_status "0xAA" 15000000 1 0 "0xp1" 20 50
    storePending rowPending (by decide) (by decide) (by decide) (by decide)

/-- **C3**, counterexample. With the tier-1 pool already at batch 5,
processing a `ContributionAccepted` event carrying batch 3 (a redelivered
older event) rewrites `current_batch` to 3: `processContribution` assigns
the event's batch unconditionally, so `Pool.currentBatch` decreases. -/
theorem pool_current_batch_decreases :
    storePendingBatch5.pools = [poolTier1 5] ∧
      (processContribution "0xAA" 1 3 "0xt1" storePendingBatch5).pools
        = [poolTier1 3] := by
  decide

/-- **C3**, amended. Processing a `ContributionAccepted` event that matches
a unique pending record sets the stored Pool's current batch to the event's
batch number *unconditionally* — not only when the event's batch exceeds
the stored one — so `Pool.currentBatch` is not monotone under redelivered
or out-of-order events. -/
theorem processContribution_sets_pool_batch_unconditionally
    (contributor : String) (tier batch : Nat) (txHash : String) (s : Store)
    (c : ContributionRow)
    (h : s.contributions.filter
          (contribPendingMatch (toLowerAddr contributor) txHash) = [c])
    (p : PoolRow) (hp : p ∈ s.pools) (ht : p.tier = tier) :
    { p with current_batch := batch } ∈
      (processContribution contributor tier batch txHash s).pools := by
  rw [processContribution_single contributor tier batch txHash s c h]
  have hmem := List.mem_map_of_mem
    (fun q => if q.tier = tier then { q with current_batch := batch }
              else q) hp
  simpa [ht] using hmem

/-- **C3**, witness: instantiated at `storePendingBatch5`, whose pool sits
at batch 5, with an event carrying batch 3. -/
theorem processContribution_sets_pool_batch_unconditionally_witness :
    { poolTier1 5 with current_batch := 3 } ∈
      (processContribution "0xAA" 1 3 "0xt1" storePendingBatch5).pools :=
  processContribution_sets_pool_batch_unconditionally "0xAA" 1 3 "0xt1"
    storePendingBatch5 rowPending (by decide) (poolTier1 5) (by decide)
    (by decide)

/-- **C7**, counterexample. `poolController.triggerManualPayout` writes
status `'processed'` — a value outside {pending, confirmed, paid} — to the
pending contributions it selects. -/
theorem manual_payout_writes_processed_status :
    (triggerManualPayout 1 60 storePending).contributions.map
        (fun r => r.status) = [Status.processed] ∧
      Status.processed ≠ Status.pending ∧
      Status.processed ≠ Status.confirmed ∧
      Status.processed ≠ Status.paid := by
  decide

/-- **C7**, amended. The *event-processing* writes keep each record's status
within {pending, confirmed, paid} and move it only forward along
pending → confirmed → paid (when record ids are unique, as the primary key
guarantees): `processContribution` confirms a pending record,
`processPayout` moves matching records to `paid`. The manual payout
controller is the exception — it writes `'processed'`, outside the set (see
the counterexample). -/
theorem engine_status_writes_monotone (now : Nat) (s : Store)
    (e : LedgerEvent)
    (hids : (s.contributions.map (fun r => r.id)).Nodup) :
    (applyEvent now s e).contributions.length = s.contributions.length ∧
    ∀ i (hi : i < s.contributions.length)
      (hi' : i < (applyEvent now s e).contributions.length),
      s.contributions[i].status ≠ Status.processed →
        (applyEvent now s e).contributions[i].status ≠ Status.processed ∧
        statusRank s.contributions[i].status ≤
          statusRank ((applyEvent now s e).contributions[i].status) := by
  cases e with
  | payoutProcessed recipient amount tier batch txHash blockNumber =>
      simp only [applyEvent, processPayout]
      refine ⟨List.length_map _ _, ?_⟩
      intro i hi hi' hstat
      rw [List.getElem_map
        (fun x => if payoutMatch (toLowerAddr recipient) tier batch x
                  then payRow now txHash x else x)]
      by_cases hm : payoutMatch (toLowerAddr recipient) tier batch
          (s.contributions[i]) = true
      · rw [if_pos hm]
        refine ⟨by simp [payRow], ?_⟩
        cases hst : (s.contributions[i]).status <;>
          simp [payRow, statusRank]
        simp [hst] at hstat
      · rw [if_neg hm]
        exact ⟨hstat, le_refl _⟩
  | contributionAccepted contributor tier batch txHash blockNumber =>
      simp only [applyEvent]
      cases hf : s.contributions.filter
          (contribPendingMatch (toLowerAddr contributor) txHash) with
      | nil =>
          have hps := processContribution_no_match contributor tier batch
            txHash s hf
          constructor
          · simp only [hps]
          · intro i hi hi' h
            simp only [hps]
            exact ⟨h, le_refl _⟩
      | cons c tail =>
          cases tail with
          | cons d t2 =>
              have hps := processContribution_multi contributor tier batch
                txHash s c d t2 hf
              constructor
              · simp only [hps]
              · intro i hi hi' h
                simp only [hps]
                exact ⟨h, le_refl _⟩
          | nil =>
              simp only [processContribution_single contributor tier batch
                txHash s c hf]
              refine ⟨List.length_map _ _, ?_⟩
              intro i hi hi' hstat
              rw [List.getElem_map
                (fun r => if r.id = c.id then confirmRow batch r else r)]
              by_cases hid : (s.contributions[i]).id = c.id
              · obtain ⟨hcmem, hcpred⟩ := filter_singleton_spec _ _ _ hf
                have hic : s.contributions[i] = c :=
                  List.inj_on_of_nodup_map hids
                    (List.mem_iff_getElem.mpr ⟨i, hi, rfl⟩) hcmem hid
                simp only [contribPendingMatch, decide_eq_true_eq] at hcpred
                have hpend : (s.contributions[i]).status = Status.pending := by
                  rw [hic]
                  exact hcpred.2.1
                rw [if_pos hid]
                refine ⟨by simp [confirmRow], ?_⟩
                simp [confirmRow, statusRank, hpend]
              · rw [if_neg hid]
                exact ⟨hstat, le_refl _⟩

/-- The confirming event used by witnesses. -/
def confirmEventA : LedgerEvent :=
  LedgerEvent.contributionAccepted "0xAA" 1 2 "0xt1" 11

/-- **C7**, witness: the amended theorem evaluated on `storePending` under a
confirming event — the pending record rises to `confirmed`. -/
theorem engine_status_writes_monotone_witness :
    (applyEvent 50 storePending confirmEventA).contributions[0].status
        ≠ Status.processed ∧
      statusRank (storePending.contributions[0].status) ≤
        statusRank
          ((applyEvent 50 storePending confirmEventA).contributions[0].status) :=
  (engine_status_writes_monotone 50 storePending confirmEventA
      (by decide)).2 0 (by decide) (by decide) (by decide)

/-- A contribution event at block 11 whose store update returns an error. -/
def failingEvent : LedgerEvent × Bool :=
  (LedgerEvent.contributionAccepted "0xAA" 1 1 "0xt1" 11, true)

/-- **C2**, counterexample. A sweep over blocks 11–12 contains one event at
block 11 whose store update fails for a non-skip reason (a Supabase error;
the matching pending record would otherwise have been confirmed —
third conjunct). The handler swallows the error, and `poll` still advances
the cursor to 12, past the failed event's block, so the range is never
retried. -/
theorem cursor_advances_past_failed_event :
    (pollSweep 10 12 [failingEvent] [] 50 storePending).syncCursor = some 12
      ∧ (pollSweep 10 12 [failingEvent] [] 50 storePending).contributions
          = storePending.contributions
      ∧ applyEvent 50 storePending failingEvent.1 ≠ storePending := by
  decide

/-- **C2**, amended. Once the block-height fetch and the two event queries
succeed, the sweep writes `last_processed_block = toBlock =
min(currentBlock, fromBlock + MAX_BLOCKS_PER_POLL)` unconditionally —
per-event application failures are caught inside the handlers and do not
hold the cursor back; only a thrown provider/query error (which aborts the
sweep before any state change) prevents advancement. -/
theorem pollSweep_advances_cursor_regardless_of_failures
    (lastProcessed currentBlock : Nat)
    (cEvents pEvents : List (LedgerEvent × Bool)) (now : Nat) (s : Store)
    (h : lastProcessed + 1 ≤ currentBlock) :
    (pollSweep lastProcessed currentBlock cEvents pEvents now s).syncCursor
      = some (min currentBlock (lastProcessed + 1 + MAX_BLOCKS_PER_POLL)) := by
  unfold pollSweep
  rw [if_neg (by omega)]

/-- **C2**, witness: the amended theorem at the counterexample's inputs —
the cursor lands on `min 12 111 = 12`. -/
theorem pollSweep_advances_cursor_witness :
    (pollSweep 10 12 [failingEvent] [] 50 storePending).syncCursor
      = some (min 12 (10 + 1 + MAX_BLOCKS_PER_POLL)) :=
  pollSweep_advances_cursor_regardless_of_failures 10 12 [failingEvent] []
    50 storePending (by decide)

/-- A live listener on the ws provider with handlers registered, over a
store holding one pending contribution. -/
def listenerWs : ListenerState :=
  { provider := ProviderKind.ws, handlersRegistered := true,
    store := storePending }

/-- **C6**, counterexample. After `handleWsFailure`, an event the
subscription would have delivered (and which mutates the Store when
delivered before the failure — second conjunct) is silently dropped: no
handler is registered on the freshly connected HTTP contract and no
catch-up sweep runs. -/
theorem ws_failover_drops_events_example :
    deliverEvent 50 confirmEventA (handleWsFailure listenerWs)
        = handleWsFailure listenerWs
      ∧ deliverEvent 50 confirmEventA listenerWs ≠ listenerWs := by
  decide

/-- **C6**, amended. On a ws subscription error/close the listener switches
the provider to HTTP and reconnects the contract, but registers no handlers
on the new contract object, performs no catch-up sweep from the last
durably-applied block, and touches no Store state; every event delivered
after the failover leaves the listener (and the Store) unchanged, i.e. the
failover *does* drop events. -/
theorem ws_failure_loses_subsequent_events (l : ListenerState)
    (h : l.provider = ProviderKind.ws) :
    (handleWsFailure l).provider = ProviderKind.http ∧
    (handleWsFailure l).handlersRegistered = false ∧
    (handleWsFailure l).store = l.store ∧
    ∀ now e, deliverEvent now e (handleWsFailure l) = handleWsFailure l := by
  unfold handleWsFailure fallbackToHttp
  rw [if_neg (by simp [h])]
  refine ⟨rfl, rfl, rfl, ?_⟩
  intro now e
  unfold deliverEvent
  simp

/-- **C6**, witness: the amended theorem at the concrete live listener. -/
theorem ws_failure_loses_subsequent_events_witness :
    (handleWsFailure listenerWs).provider = ProviderKind.http ∧
    (handleWsFailure listenerWs).handlersRegistered = false ∧
    (handleWsFailure listenerWs).store = listenerWs.store ∧
    ∀ now e, deliverEvent now e (handleWsFailure listenerWs)
      = handleWsFailure listenerWs :=
  ws_failure_loses_subsequent_events listenerWs (by decide)

/-- **C9**, counterexample. The testnet's hardcoded contributor amounts
(30, 150, 1500 × 10⁶) *are* derivable from a single ratio applied to every
tier's contribution amount: each equals exactly 3 × the tier's contribution
(equivalently, 60% of the five pooled contributions), refuting the claim's
"not derivable from a single ratio for all tiers consistently". -/
theorem testnet_amounts_are_single_ratio :
    testnetContributorAmount 1 = 3 * initContributionAmount 1 ∧
    testnetContributorAmount 2 = 3 * initContributionAmount 2 ∧
    testnetContributorAmount 3 = 3 * initContributionAmount 3 := by
  decide

/-- **C9**, amended. The mainnet contract computes the contributor payout as
`contributionAmount * 3 / 2` for every tier, while the testnet contract
hardcodes per-tier absolute amounts (30, 150, 1500 × 10⁶) — which all equal
3 × the tier's contribution amount, a single uniform ratio; the two payout
rules disagree as functions of tier: at every tier the amounts differ. -/
theorem payout_rules_divergence (tier : Nat)
    (h : tier = 1 ∨ tier = 2 ∨ tier = 3) :
    mainnetContributorAmount (initContributionAmount tier)
        = initContributionAmount tier * 3 / 2 ∧
    testnetContributorAmount tier = 3 * initContributionAmount tier ∧
    mainnetContributorAmount (initContributionAmount tier)
        ≠ testnetContributorAmount tier := by
  rcases h with h | h | h <;> subst h <;> refine ⟨rfl, by decide, by decide⟩

/-- **C9**, witness: tier 1 — mainnet pays 15 × 10⁶, testnet 30 × 10⁶. -/
theorem payout_rules_divergence_witness :
    mainnetContributorAmount (initContributionAmount 1)
        = initContributionAmount 1 * 3 / 2 ∧
    testnetContributorAmount 1 = 3 * initContributionAmount 1 ∧
    mainnetContributorAmount (initContributionAmount 1)
        ≠ testnetContributorAmount 1 :=
  payout_rules_divergence 1 (Or.inl rfl)

/-! ## Contract characterization lemmas -/

/-- A mainnet batch close always bumps `currentBatch` by exactly one,
whether or not the payout guard fires. -/
theorem mProcessBatchPayout_currentBatch (tier : Nat) (p : PoolC) :
    (mProcessBatchPayout tier p).1.currentBatch = p.currentBatch + 1 := by
  unfold mProcessBatchPayout
  by_cases h : p.batchPayoutIndex p.currentBatch < 5 <;> simp [h]

/-- A testnet batch close always bumps `currentBatch` by exactly one. -/
theorem tProcessBatchPayout_currentBatch (tier : Nat) (p : PoolC) :
    (tProcessBatchPayout tier p).1.currentBatch = p.currentBatch + 1 := by
  unfold tProcessBatchPayout
  by_cases h0 : p.currentBatch = 0
  · simp [h0]
  · by_cases h5 : p.batchPayoutIndex (p.currentBatch - 1) < 5 <;>
      simp [h0, h5]

/-- `TwoPay.contribute` on a non-closing call: push the sender, no payout,
event carries the unchanged `currentBatch`. -/
theorem mContribute_open (tier : Nat) (sender : String) (p : PoolC)
    (h5 : p.contributors.length + 1 ≠ 5) :
    mContribute tier sender p =
      ({ p with contributors := p.contributors ++ [sender] },
       [ChainEvent.contributionAdded sender tier p.currentBatch]) := by
  unfold mContribute
  simp [h5]

/-- `TwoPay.contribute` on the 5th contribution, given the reachable-state
fact that the closing batch's payout index is 0: the batch is stored, its
first contributor is paid `contributionAmount * 3 / 2`, the index becomes
1, `contributors` resets, and `currentBatch` increments; the
`ContributionAdded` event carries the *new* batch number. -/
theorem mContribute_close (tier : Nat) (sender : String) (p : PoolC)
    (h4 : p.contributors.length = 4)
    (hidx : p.batchPayoutIndex p.currentBatch = 0) :
    mContribute tier sender p =
      ({ contributionAmount := p.contributionAmount
         currentBatch := p.currentBatch + 1
         contributors := []
         batches := fun b => if b = p.currentBatch
                             then p.contributors ++ [sender]
                             else p.batches b
         batchPayoutIndex := fun b => if b = p.currentBatch then 1
                                      else p.batchPayoutIndex b },
       [ChainEvent.payoutProcessed ((p.contributors ++ [sender]).getD 0 "")
          (mainnetContributorAmount p.contributionAmount) tier p.currentBatch,
        ChainEvent.contributionAdded sender tier (p.currentBatch + 1)]) := by
  unfold mContribute mProcessBatchPayout
  have h5 : (p.contributors ++ [sender]).length = 5 := by simp [h4]
  simp [h5, hidx]

/-- `TwoPayTestnet.contribute` on a repeat contributor reverts. -/
theorem tContribute_repeat (tier : Nat) (sender : String) (t : TPool)
    (hs : t.hasContributed sender = true) :
    tContribute tier sender t = none := by
  unfold tContribute
  simp [hs]

/-- `TwoPayTestnet.contribute` on a non-closing call. -/
theorem tContribute_open (tier : Nat) (sender : String) (t : TPool)
    (hs : t.hasContributed sender = false)
    (h5 : t.pool.contributors.length + 1 ≠ 5) :
    tContribute tier sender t =
      some ({ pool := { t.pool with
                        contributors := t.pool.contributors ++ [sender] }
              hasContributed := fun a => if a = sender then true
                                         else t.hasContributed a },
            [ChainEvent.contributionAdded sender tier t.pool.currentBatch]) := by
  unfold tContribute tContributeBody
  simp [hs, h5]

/-- `TwoPayTestnet.contribute` closing batch 0: pays the stored batch's
first contributor and sets `batchPayoutIndex[0] = 1`; the emitted payout
carries batch number 0 (pre-increment) and the `ContributionAdded` event
the new batch 1. -/
theorem tContribute_close_zero (tier : Nat) (sender : String) (t : TPool)
    (hs : t.hasContributed sender = false)
    (h4 : t.pool.contributors.length = 4)
    (h0 : t.pool.currentBatch = 0) :
    tContribute tier sender t =
      some ({ pool :=
                { contributionAmount := t.pool.contributionAmount
                  currentBatch := 1
                  contributors := []
                  batches := fun b => if b = 0
                                      then t.pool.contributors ++ [sender]
                                      else t.pool.batches b
                  batchPayoutIndex := fun b => if b = 0 then 1
                                               else t.pool.batchPayoutIndex b }
              hasContributed := fun a => if a = sender then true
                                         else t.hasContributed a },
            [ChainEvent.payoutProcessed
                ((t.pool.contributors ++ [sender]).getD 0 "")
                (testnetContributorAmount tier) tier 0,
             ChainEvent.contributionAdded sender tier 1]) := by
  unfold tContribute tContributeBody tProcessBatchPayout tProcessPayout
  have h5 : (t.pool.contributors ++ [sender]).length = 5 := by simp [h4]
  simp [hs, h5, h0]

/-- `TwoPayTestnet.contribute` closing a batch `n ≥ 1`: pays the *previous*
batch's contributor at that batch's payout index (which increments); the
emitted payout carries the closing batch's number `n` (pre-increment), not
the paid contributor's batch `n - 1`. -/
theorem tContribute_close_pos (tier : Nat) (sender : String) (t : TPool)
    (hs : t.hasContributed sender = false)
    (h4 : t.pool.contributors.length = 4)
    (h0 : t.pool.currentBatch ≠ 0)
    (hidx : t.pool.batchPayoutIndex (t.pool.currentBatch - 1) < 5) :
    tContribute tier sender t =
      some ({ pool :=
                { contributionAmount := t.pool.contributionAmount
                  currentBatch := t.pool.currentBatch + 1
                  contributors := []
                  batches := fun b => if b = t.pool.currentBatch
                                      then t.pool.contributors ++ [sender]
                                      else t.pool.batches b
                  batchPayoutIndex := fun b =>
                    if b = t.pool.currentBatch - 1
                    then t.pool.batchPayoutIndex (t.pool.currentBatch - 1) + 1
                    else t.pool.batchPayoutIndex b }
              hasContributed := fun a => if a = sender then true
                                         else t.hasContributed a },
            [ChainEvent.payoutProcessed
                ((t.pool.batches (t.pool.currentBatch - 1)).getD
                  (t.pool.batchPayoutIndex (t.pool.currentBatch - 1)) "")
                (testnetContributorAmount tier) tier t.pool.currentBatch,
             ChainEvent.contributionAdded sender tier
               (t.pool.currentBatch + 1)]) := by
  unfold tContribute tContributeBody tProcessBatchPayout tProcessPayout
  have h5 : (t.pool.contributors ++ [sender]).length = 5 := by simp [h4]
  have hne : t.pool.currentBatch - 1 ≠ t.pool.currentBatch := by omega
  simp [hs, h5, h0, hidx, hne]

/-- A successful `tContribute` is exactly the guard-free body. -/
theorem tContribute_some (tier : Nat) (sender : String) (t t' : TPool)
    (evs : List ChainEvent)
    (he : tContribute tier sender t = some (t', evs)) :
    t.hasContributed sender = false ∧
      tContributeBody tier sender t = (t', evs) := by
  unfold tContribute at he
  by_cases hs : t.hasContributed sender
  · rw [if_pos hs] at he
    exact absurd he (by simp)
  · rw [if_neg hs] at he
    exact ⟨by simpa using hs, Option.some.inj he⟩

/-! ## Reachable-state invariants of the contracts -/

/-- Invariant of reachable mainnet pools: at most four queued contributors,
and every batch at or above the current one still has payout index 0. -/
def MInv (p : PoolC) : Prop :=
  p.contributors.length ≤ 4 ∧
  ∀ b, p.currentBatch ≤ b → p.batchPayoutIndex b = 0

theorem mInv_init (tier : Nat) : MInv (initPool tier) :=
  ⟨by simp [initPool], fun _ _ => rfl⟩

theorem mInv_step (tier : Nat) (sender : String) (p : PoolC)
    (h : MInv p) : MInv (mContribute tier sender p).1 := by
  obtain ⟨hlen, hidx⟩ := h
  by_cases h4 : p.contributors.length = 4
  · rw [mContribute_close tier sender p h4 (hidx _ (le_refl _))]
    refine ⟨by simp, ?_⟩
    intro b hb
    have hb' : p.currentBatch + 1 ≤ b := hb
    show (if b = p.currentBatch then 1 else p.batchPayoutIndex b) = 0
    rw [if_neg (by omega)]
    exact hidx b (by omega)
  · rw [mContribute_open tier sender p (by omega)]
    refine ⟨?_, hidx⟩
    show (p.contributors ++ [sender]).length ≤ 4
    simp only [List.length_append, List.length_singleton]
    omega

/-- Every reachable mainnet pool satisfies `MInv`. -/
theorem mReachable_minv (tier : Nat) (p : PoolC)
    (h : MReachable tier p) : MInv p := by
  induction h with
  | init => exact mInv_init tier
  | step q sender _ ih => exact mInv_step tier sender q ih

/-- Invariant of reachable testnet pools: at most four queued contributors;
batches at or above the current one have payout index 0; the previous
batch's payout index is at most 1; every closed batch was stored with
exactly five contributors. -/
def TInv (t : TPool) : Prop :=
  t.pool.contributors.length ≤ 4 ∧
  (∀ b, t.pool.currentBatch ≤ b → t.pool.batchPayoutIndex b = 0) ∧
  (t.pool.currentBatch ≠ 0 →
    t.pool.batchPayoutIndex (t.pool.currentBatch - 1) ≤ 1) ∧
  (∀ b, b < t.pool.currentBatch → (t.pool.batches b).length = 5)

theorem tInv_init (tier : Nat) : TInv (initTPool tier) :=
  ⟨by simp [initTPool, initPool], fun _ _ => rfl,
   by simp [initTPool, initPool], by simp [initTPool, initPool]⟩

theorem tInv_step (tier : Nat) (sender : String) (t t' : TPool)
    (evs : List ChainEvent) (h : TInv t)
    (he : tContribute tier sender t = some (t', evs)) : TInv t' := by
  obtain ⟨hlen, hidx, hprev, hbat⟩ := h
  obtain ⟨hs, -⟩ := tContribute_some tier sender t t' evs he
  by_cases h4 : t.pool.contributors.length = 4
  · by_cases h0 : t.pool.currentBatch = 0
    · rw [tContribute_close_zero tier sender t hs h4 h0] at he
      obtain rfl : t' = _ := (Prod.mk.injEq _ _ _ _).mp
        (Option.some.inj he) |>.1.symm
      refine ⟨by simp, ?_, ?_, ?_⟩
      · intro b hb
        have hb' : 1 ≤ b := hb
        show (if b = 0 then 1 else t.pool.batchPayoutIndex b) = 0
        rw [if_neg (by omega)]
        exact hidx b (by omega)
      · intro _
        show (if (0 : Nat) = 0 then 1 else t.pool.batchPayoutIndex 0) ≤ 1
        simp
      · intro b hb
        have hb' : b < 1 := hb
        have hb0 : b = 0 := by omega
        show (if b = 0 then t.pool.contributors ++ [sender]
              else t.pool.batches b).length = 5
        rw [if_pos hb0]
        simp [h4]
    · have hidx5 : t.pool.batchPayoutIndex (t.pool.currentBatch - 1) < 5 := by
        have := hprev h0
        omega
      rw [tContribute_close_pos tier sender t hs h4 h0 hidx5] at he
      obtain rfl : t' = _ := (Prod.mk.injEq _ _ _ _).mp
        (Option.some.inj he) |>.1.symm
      refine ⟨by simp, ?_, ?_, ?_⟩
      · intro b hb
        have hb' : t.pool.currentBatch + 1 ≤ b := hb
        show (if b = t.pool.currentBatch - 1
              then t.pool.batchPayoutIndex (t.pool.currentBatch - 1) + 1
              else t.pool.batchPayoutIndex b) = 0
        rw [if_neg (by omega)]
        exact hidx b (by omega)
      · intro _
        show (if t.pool.currentBatch + 1 - 1 = t.pool.currentBatch - 1
              then t.pool.batchPayoutIndex (t.pool.currentBatch - 1) + 1
              else t.pool.batchPayoutIndex (t.pool.currentBatch + 1 - 1)) ≤ 1
        rw [if_neg (by omega)]
        have : t.pool.currentBatch + 1 - 1 = t.pool.currentBatch := by omega
        rw [this]
        rw [hidx t.pool.currentBatch (le_refl _)]
        omega
      · intro b hb
        have hb' : b < t.pool.currentBatch + 1 := hb
        show (if b = t.pool.currentBatch then t.pool.contributors ++ [sender]
              else t.pool.batches b).length = 5
        by_cases hbc : b = t.pool.currentBatch
        · rw [if_pos hbc]
          simp [h4]
        · rw [if_neg hbc]
          exact hbat b (by omega)
  · rw [tContribute_open tier sender t hs (by omega)] at he
    obtain rfl : t' = _ := (Prod.mk.injEq _ _ _ _).mp
      (Option.some.inj he) |>.1.symm
    refine ⟨?_, hidx, hprev, hbat⟩
    show (t.pool.contributors ++ [sender]).length ≤ 4
    simp only [List.length_append, List.length_singleton]
    omega

/-- Every reachable testnet pool satisfies `TInv`. -/
theorem tReachable_tinv (tier : Nat) (t : TPool)
    (h : TReachable tier t) : TInv t := by
  induction h with
  | init => exact tInv_init tier
  | step q q' sender evs _ he ih => exact tInv_step tier sender q q' evs ih he

/-- The last event of any mainnet `contribute` call is the
`ContributionAdded`, whose batch field is the *post-call* `currentBatch`. -/
theorem mContribute_snd_last (tier : Nat) (sender : String) (p : PoolC) :
    (mContribute tier sender p).2.getLast? =
      some (ChainEvent.contributionAdded sender tier
        (mContribute tier sender p).1.currentBatch) := by
  unfold mContribute
  simp

/-- `currentBatch` after a mainnet `contribute` call. -/
theorem mContribute_currentBatch (tier : Nat) (sender : String) (p : PoolC) :
    (mContribute tier sender p).1.currentBatch =
      if p.contributors.length + 1 = 5 then p.currentBatch + 1
      else p.currentBatch := by
  unfold mContribute
  by_cases h5 : (p.contributors ++ [sender]).length = 5
  · have h5' : p.contributors.length + 1 = 5 := by simpa using h5
    simp [h5, h5', mProcessBatchPayout_currentBatch]
  · have h5' : ¬(p.contributors.length + 1 = 5) := by simpa using h5
    simp [h5, h5']

/-- The last event of any successful testnet `contribute` is the
`ContributionAdded`, whose batch field is the *post-call* `currentBatch`. -/
theorem tContributeBody_snd_last (tier : Nat) (sender : String) (t : TPool) :
    (tContributeBody tier sender t).2.getLast? =
      some (ChainEvent.contributionAdded sender tier
        (tContributeBody tier sender t).1.pool.currentBatch) := by
  unfold tContributeBody
  simp

/-- `currentBatch` after a successful testnet `contribute` call. -/
theorem tContributeBody_currentBatch (tier : Nat) (sender : String)
    (t : TPool) :
    (tContributeBody tier sender t).1.pool.currentBatch =
      if t.pool.contributors.length + 1 = 5 then t.pool.currentBatch + 1
      else t.pool.currentBatch := by
  unfold tContributeBody
  by_cases h5 : (t.pool.contributors ++ [sender]).length = 5
  · have h5' : t.pool.contributors.length + 1 = 5 := by simpa using h5
    simp [h5, h5', tProcessBatchPayout_currentBatch]
  · have h5' : ¬(t.pool.contributors.length + 1 = 5) := by simpa using h5
    simp [h5, h5']

/-- **C10**. In both contract variants, `emit ContributionAdded` runs after
`_processBatchPayout` has already incremented `currentBatch`: the event for
the 5th (batch-closing) contribution carries the new, empty batch's number
(`currentBatch + 1`), not the number of the batch that contribution
completed; only the first four contributions of a batch carry that batch's
own number. -/
theorem contributionAdded_batch_field (tier : Nat) (sender : String)
    (p : PoolC) (t : TPool) :
    (mContribute tier sender p).2.getLast? =
      some (ChainEvent.contributionAdded sender tier
        (if p.contributors.length + 1 = 5 then p.currentBatch + 1
         else p.currentBatch)) ∧
    ∀ t' evs, tContribute tier sender t = some (t', evs) →
      evs.getLast? =
        some (ChainEvent.contributionAdded sender tier
          (if t.pool.contributors.length + 1 = 5 then t.pool.currentBatch + 1
           else t.pool.currentBatch)) := by
  constructor
  · rw [mContribute_snd_last, mContribute_currentBatch]
  · intro t' evs he
    obtain ⟨-, hb⟩ := tContribute_some tier sender t t' evs he
    have h2 : evs = (tContributeBody tier sender t).2 :=
      (congrArg Prod.snd hb).symm
    rw [h2, tContributeBody_snd_last, tContributeBody_currentBatch]

/-- A mainnet pool one contribution short of closing its first batch. -/
def mPool4 : PoolC :=
  { initPool 1 with contributors := ["0xa1", "0xa2", "0xa3", "0xa4"] }

/-- A testnet pool one contribution short of closing its first batch. -/
def tPool4 : TPool :=
  { pool := { initPool 1 with
              contributors := ["0xa1", "0xa2", "0xa3", "0xa4"] }
    hasContributed := fun a =>
      decide (a = "0xa1" ∨ a = "0xa2" ∨ a = "0xa3" ∨ a = "0xa4") }

/-- **C10**, witness: the 5th contribution to both four-strong pools emits
`ContributionAdded` with batch `0 + 1 = 1`. -/
theorem contributionAdded_batch_field_witness :
    (mContribute 1 "0xa5" mPool4).2.getLast? =
      some (ChainEvent.contributionAdded "0xa5" 1
        (if mPool4.contributors.length + 1 = 5 then mPool4.currentBatch + 1
         else mPool4.currentBatch)) ∧
    ((tContribute 1 "0xa5" tPool4).getD (tPool4, [])).2.getLast? =
      some (ChainEvent.contributionAdded "0xa5" 1
        (if tPool4.pool.contributors.length + 1 = 5
         then tPool4.pool.currentBatch + 1
         else tPool4.pool.currentBatch)) :=
  ⟨(contributionAdded_batch_field 1 "0xa5" mPool4 tPool4).1,
   (contributionAdded_batch_field 1 "0xa5" mPool4 tPool4).2
     ((tContribute 1 "0xa5" tPool4).getD (tPool4, [])).1
     ((tContribute 1 "0xa5" tPool4).getD (tPool4, [])).2 rfl⟩

/-- **C5**. On-chain, for every tier: a `contribute` call closes the batch
and issues exactly one payout precisely when it is the 5th accepted
contribution of the current batch, and `currentBatch` then increments by 1
(otherwise it is unchanged). The closing batch is stored as its contributors
in original contribution order, and every payout pays the contributor
sitting at the drawn batch's round-robin payout index, which then
increments by one — so successive payouts drawn from any fixed batch go to
its contributors strictly in original contribution order. On mainnet the
drawn batch is the closing batch itself (always at index 0 in reachable
states); on testnet batch 0 is drawn at its own close and every later close
draws from the previous batch. -/
theorem batch_close_payout_round_robin (tier : Nat) (sender : String)
    (p : PoolC) (hp : MReachable tier p) (t : TPool)
    (htr : TReachable tier t) :
    (payoutCount (mContribute tier sender p).2 = 1 ↔
        p.contributors.length + 1 = 5) ∧
    ((mContribute tier sender p).1.currentBatch =
        if p.contributors.length + 1 = 5 then p.currentBatch + 1
        else p.currentBatch) ∧
    (p.contributors.length + 1 = 5 →
      (mContribute tier sender p).1.batches p.currentBatch
          = p.contributors ++ [sender] ∧
      p.batchPayoutIndex p.currentBatch = 0 ∧
      (mContribute tier sender p).2.head? =
        some (ChainEvent.payoutProcessed
          ((p.contributors ++ [sender]).getD
            (p.batchPayoutIndex p.currentBatch) "")
          (mainnetContributorAmount p.contributionAmount) tier
          p.currentBatch) ∧
      (mContribute tier sender p).1.batchPayoutIndex p.currentBatch =
        p.batchPayoutIndex p.currentBatch + 1) ∧
    (∀ t' evs, tContribute tier sender t = some (t', evs) →
      (payoutCount evs = 1 ↔ t.pool.contributors.length + 1 = 5) ∧
      (t'.pool.currentBatch =
        if t.pool.contributors.length + 1 = 5 then t.pool.currentBatch + 1
        else t.pool.currentBatch) ∧
      (t.pool.contributors.length + 1 = 5 →
        t'.pool.batches t.pool.currentBatch
            = t.pool.contributors ++ [sender] ∧
        (t.pool.currentBatch = 0 →
          evs.head? = some (ChainEvent.payoutProcessed
              ((t.pool.contributors ++ [sender]).getD 0 "")
              (testnetContributorAmount tier) tier 0) ∧
          t'.pool.batchPayoutIndex 0 = 1) ∧
        (t.pool.currentBatch ≠ 0 →
          evs.head? = some (ChainEvent.payoutProcessed
              ((t.pool.batches (t.pool.currentBatch - 1)).getD
                (t.pool.batchPayoutIndex (t.pool.currentBatch - 1)) "")
              (testnetContributorAmount tier) tier t.pool.currentBatch) ∧
          t'.pool.batchPayoutIndex (t.pool.currentBatch - 1) =
            t.pool.batchPayoutIndex (t.pool.currentBatch - 1) + 1))) := by
  obtain ⟨hlen, hidx⟩ := mReachable_minv tier p hp
  obtain ⟨htlen, htidx, htprev, htbat⟩ := tReachable_tinv tier t htr
  refine ⟨?_, mContribute_currentBatch tier sender p, ?_, ?_⟩
  · by_cases h4 : p.contributors.length = 4
    · rw [mContribute_close tier sender p h4 (hidx _ (le_refl _))]
      exact ⟨fun _ => by omega, fun _ => rfl⟩
    · rw [mContribute_open tier sender p (by omega)]
      constructor
      · intro hc
        simp [payoutCount] at hc
      · intro hc
        omega
  · intro h5
    have h4 : p.contributors.length = 4 := by omega
    have hidx0 := hidx p.currentBatch (le_refl p.currentBatch)
    rw [mContribute_close tier sender p h4 hidx0]
    refine ⟨?_, hidx0, ?_, ?_⟩
    · show (if p.currentBatch = p.currentBatch
            then p.contributors ++ [sender]
            else p.batches p.currentBatch) = p.contributors ++ [sender]
      rw [if_pos rfl]
    · rw [hidx0]
      rfl
    · show (if p.currentBatch = p.currentBatch then 1
            else p.batchPayoutIndex p.currentBatch)
          = p.batchPayoutIndex p.currentBatch + 1
      rw [if_pos rfl, hidx0]
  · intro t' evs he
    obtain ⟨hs, -⟩ := tContribute_some tier sender t t' evs he
    by_cases h4 : t.pool.contributors.length = 4
    · by_cases h0 : t.pool.currentBatch = 0
      · rw [tContribute_close_zero tier sender t hs h4 h0] at he
        obtain rfl : evs = _ :=
          ((Prod.mk.injEq _ _ _ _).mp (Option.some.inj he)).2.symm
        obtain rfl : t' = _ :=
          ((Prod.mk.injEq _ _ _ _).mp (Option.some.inj he)).1.symm
        refine ⟨⟨fun _ => by omega, fun _ => rfl⟩, ?_, ?_⟩
        · show (1 : Nat) = if t.pool.contributors.length + 1 = 5
              then t.pool.currentBatch + 1 else t.pool.currentBatch
          rw [if_pos (by omega), h0]
        · intro _
          refine ⟨?_, fun _ => ⟨rfl, ?_⟩, fun hc => absurd h0 hc⟩
          · show (if t.pool.currentBatch = 0
                  then t.pool.contributors ++ [sender]
                  else t.pool.batches t.pool.currentBatch)
                = t.pool.contributors ++ [sender]
            rw [if_pos h0]
          · show (if (0 : Nat) = 0 then 1
                  else t.pool.batchPayoutIndex 0) = 1
            rw [if_pos rfl]
      · have hidx5 : t.pool.batchPayoutIndex (t.pool.currentBatch - 1)
            < 5 := by
          have := htprev h0
          omega
        rw [tContribute_close_pos tier sender t hs h4 h0 hidx5] at he
        obtain rfl : evs = _ :=
          ((Prod.mk.injEq _ _ _ _).mp (Option.some.inj he)).2.symm
        obtain rfl : t' = _ :=
          ((Prod.mk.injEq _ _ _ _).mp (Option.some.inj he)).1.symm
        refine ⟨⟨fun _ => by omega, fun _ => rfl⟩, ?_, ?_⟩
        · show t.pool.currentBatch + 1
              = if t.pool.contributors.length + 1 = 5
                then t.pool.currentBatch + 1 else t.pool.currentBatch
          rw [if_pos (by omega)]
        · intro _
          refine ⟨?_, fun hc => absurd hc h0, fun _ => ⟨rfl, ?_⟩⟩
          · show (if t.pool.currentBatch = t.pool.currentBatch
                  then t.pool.contributors ++ [sender]
                  else t.pool.batches t.pool.currentBatch)
                = t.pool.contributors ++ [sender]
            rw [if_pos rfl]
          · show (if t.pool.currentBatch - 1 = t.pool.currentBatch - 1
                  then t.pool.batchPayoutIndex (t.pool.currentBatch - 1) + 1
                  else t.pool.batchPayoutIndex (t.pool.currentBatch - 1))
                = t.pool.batchPayoutIndex (t.pool.currentBatch - 1) + 1
            rw [if_pos rfl]
    · rw [tContribute_open tier sender t hs (by omega)] at he
      obtain rfl : evs = _ :=
        ((Prod.mk.injEq _ _ _ _).mp (Option.some.inj he)).2.symm
      obtain rfl : t' = _ :=
        ((Prod.mk.injEq _ _ _ _).mp (Option.some.inj he)).1.symm
      refine ⟨?_, ?_, fun h5 => absurd h5 (by omega)⟩
      · constructor
        · intro hc
          simp [payoutCount] at hc
        · intro hc
          omega
      · show t.pool.currentBatch
            = if t.pool.contributors.length + 1 = 5
              then t.pool.currentBatch + 1 else t.pool.currentBatch
        rw [if_neg (by omega)]

/-- `mPool4` is reachable: four `contribute` calls from the constructor
state. -/
theorem mPool4_reachable : MReachable 1 mPool4 :=
  MReachable.step _ "0xa4" (MReachable.step _ "0xa3"
    (MReachable.step _ "0xa2" (MReachable.step _ "0xa1" MReachable.init)))

/-- One successful testnet contribution, as a total step function. -/
def tAfter (tier : Nat) (sender : String) (t : TPool) : TPool :=
  ((tContribute tier sender t).getD (t, [])).1

/-- A fresh sender's contribution reaches a reachable state. -/
theorem tReachable_tAfter (tier : Nat) (sender : String) (t : TPool)
    (h : TReachable tier t) (hs : t.hasContributed sender = false) :
    TReachable tier (tAfter tier sender t) := by
  refine TReachable.step t (tAfter tier sender t) sender
    ((tContribute tier sender t).getD (t, [])).2 h ?_
  unfold tAfter tContribute
  simp [hs]

/-- The reachable testnet pool after four distinct contributions. -/
def tPool4R : TPool :=
  tAfter 1 "0xa4" (tAfter 1 "0xa3" (tAfter 1 "0xa2"
    (tAfter 1 "0xa1" (initTPool 1))))

theorem tPool4R_reachable : TReachable 1 tPool4R :=
  tReachable_tAfter 1 "0xa4" _
    (tReachable_tAfter 1 "0xa3" _
      (tReachable_tAfter 1 "0xa2" _
        (tReachable_tAfter 1 "0xa1" _ TReachable.init (by decide))
        (by decide))
      (by decide))
    (by decide)

/-- **C5**, witness: the 5th contribution to the reachable four-strong
mainnet pool closes batch 0, stores it in contribution order, and pays its
first contributor, bumping the batch's payout index from 0 to 1. -/
theorem batch_close_payout_round_robin_witness :
    (mContribute 1 "0xa5" mPool4).1.batches mPool4.currentBatch
        = mPool4.contributors ++ ["0xa5"] ∧
      mPool4.batchPayoutIndex mPool4.currentBatch = 0 ∧
      (mContribute 1 "0xa5" mPool4).2.head? =
        some (ChainEvent.payoutProcessed
          ((mPool4.contributors ++ ["0xa5"]).getD
            (mPool4.batchPayoutIndex mPool4.currentBatch) "")
          (mainnetContributorAmount mPool4.contributionAmount) 1
          mPool4.currentBatch) ∧
      (mContribute 1 "0xa5" mPool4).1.batchPayoutIndex mPool4.currentBatch =
        mPool4.batchPayoutIndex mPool4.currentBatch + 1 :=
  ((batch_close_payout_round_robin 1 "0xa5" mPool4 mPool4_reachable
      tPool4R tPool4R_reachable).2.2.1) (by decide)

end TwoPayBackend


